import Mathlib

/-!
Verification of `rust_reddit_api` (`src/api.rs`)

A shallow embedding of the reddit API client in `src/api.rs` and proofs of
its specified properties.  The embedding models:

* `gen_request_uri` — URL construction by concatenation with the fixed origin;
* `gen_headers` — splitting the configured header string on `,` into the
  ordered header list (Rust `str::split(",")` semantics: empty pieces kept,
  the empty string splits into one empty piece);
* `get_output_from_transfer` — accumulation of the streamed response byte
  chunks (each UTF-8 decoded, as `str::from_utf8(..).unwrap()` does) into a
  buffer, joined with no separator after the transfer;
* `path_query` — the facade composing the above with a JSON parse of the body.

Every `unwrap()` in the source aborts the process on failure; the embedding
makes that explicit with the `PanicOr` outcome type: `PanicOr.panic msg`
models a Rust panic (no value and no error value reaches the caller), and
`PanicOr.ok v` a normal return.
-/

namespace RustRedditApi

/-- Rust `str::split` on a single-character pattern, over the character
list of the string: splits at every occurrence of `sep`, keeps empty
pieces, and yields one (empty) piece for the empty input. -/
def splitChar (sep : Char) : List Char → List (List Char)
  | [] => [[]]
  | c :: cs =>
    if c = sep then [] :: splitChar sep cs
    else (c :: (splitChar sep cs).headD []) :: (splitChar sep cs).tail

/-- The function `gen_request_uri` from `src/api.rs`:
`format!("https://www.reddit.com{}", search)`. -/
def gen_request_uri (search : String) : String :=
  "https://www.reddit.com" ++ search

/-- The function `gen_headers` from `src/api.rs`: appends every comma-separated piece of
`header_string` to a fresh `curl::easy::List`, in order.  The resulting
list of header lines is modelled as a `List String`. -/
def gen_headers (header_string : String) : List String :=
  (splitChar ',' header_string.data).map String.mk

/-- Joining header entries with the literal comma separator: the sense in
which an input string "consists of comma-separated entries". -/
def joinComma : List String → String
  | [] => ""
  | [s] => s
  | s :: s2 :: rest => s ++ "," ++ joinComma (s2 :: rest)

/- ### Lemmas about `splitChar` -/

theorem splitChar_ne_nil (sep : Char) (l : List Char) : splitChar sep l ≠ [] := by
  cases l with
  | nil => simp [splitChar]
  | cons c cs =>
    simp only [splitChar]
    split <;> simp

theorem splitChar_append_sep (sep : Char) (a b : List Char) :
    splitChar sep (a ++ sep :: b) = splitChar sep a ++ splitChar sep b := by
  induction a with
  | nil => simp [splitChar]
  | cons c cs ih =>
    rcases h : splitChar sep cs with _ | ⟨p, ps⟩
    · exact absurd h (splitChar_ne_nil sep cs)
    · by_cases hc : c = sep
      · simp [splitChar, hc, ih, h]
      · simp [splitChar, hc, ih, h]

theorem splitChar_of_not_mem (sep : Char) (l : List Char) (h : sep ∉ l) :
    splitChar sep l = [l] := by
  induction l with
  | nil => rfl
  | cons c cs ih =>
    simp only [List.mem_cons, not_or] at h
    simp [splitChar, Ne.symm h.1, ih h.2]

theorem splitChar_length (sep : Char) (l : List Char) :
    (splitChar sep l).length = l.count sep + 1 := by
  induction l with
  | nil => simp [splitChar]
  | cons c cs ih =>
    rcases h : splitChar sep cs with _ | ⟨p, ps⟩
    · exact absurd h (splitChar_ne_nil sep cs)
    · by_cases hc : c = sep
      · simp [splitChar, hc, h, List.count_cons, ← ih]
      · simp [splitChar, hc, h, List.count_cons, Ne.symm hc, ← ih]

theorem string_data_append (a b : String) : (a ++ b).data = a.data ++ b.data :=
  rfl

theorem string_mk_data (s : String) : String.mk s.data = s :=
  rfl

theorem gen_headers_joinComma (entries : List String) (h1 : entries ≠ [])
    (h2 : ∀ e ∈ entries, ',' ∉ e.data) :
    gen_headers (joinComma entries) = entries := by
  induction entries with
  | nil => exact absurd rfl h1
  | cons s rest ih =>
    cases rest with
    | nil =>
      have hs : ',' ∉ s.data := h2 s (by simp)
      simp [joinComma, gen_headers, splitChar_of_not_mem ',' s.data hs,
        string_mk_data]
    | cons s2 rest2 =>
      have hs : ',' ∉ s.data := h2 s (by simp)
      have hdata : (joinComma (s :: s2 :: rest2)).data
          = s.data ++ ',' :: (joinComma (s2 :: rest2)).data := by
        simp only [joinComma, string_data_append, List.append_assoc]
        rfl
      have ihrest : gen_headers (joinComma (s2 :: rest2)) = s2 :: rest2 :=
        ih (by simp) (fun e he => h2 e (List.mem_cons_of_mem s he))
      simp only [gen_headers, hdata, splitChar_append_sep,
        splitChar_of_not_mem ',' s.data hs, List.map_append, List.map_cons,
        List.map_nil, string_mk_data]
      simpa [gen_headers] using ihrest

/- ### The transfer executor and the query facade -/

/-- Outcome of running Rust code whose failure points are `unwrap()` calls:
`panic msg` models the process-aborting Rust panic — no value and no error
value reaches the caller — and `ok v` models a normal return. -/
inductive PanicOr (α : Type) where
  | panic (msg : String)
  | ok (v : α)

/-- A UTF-8 continuation byte (`0x80..0xBF`). -/
def isContByte (b : Nat) : Bool :=
  decide (0x80 ≤ b) && decide (b < 0xC0)

/-- Strict UTF-8 decoding of a byte sequence, as Rust
`std::str::from_utf8` validates it: correct continuation bytes, no
overlong encodings, no surrogate code points, nothing above `U+10FFFF`.
`fuel` only bounds the recursion; one unit is spent per decoded
character, so `fuel = length` always suffices. -/
def utf8DecodeLoop : Nat → List Nat → Option (List Char)
  | _, [] => some []
  | 0, _ :: _ => none
  | fuel + 1, b :: rest =>
    if b < 0x80 then
      (utf8DecodeLoop fuel rest).map (fun cs => Char.ofNat b :: cs)
    else if 0xC2 ≤ b ∧ b ≤ 0xDF then
      match rest with
      | b1 :: rest2 =>
        if isContByte b1 then
          (utf8DecodeLoop fuel rest2).map
            (fun cs => Char.ofNat ((b - 0xC0) * 64 + (b1 - 0x80)) :: cs)
        else none
      | [] => none
    else if 0xE0 ≤ b ∧ b ≤ 0xEF then
      match rest with
      | b1 :: b2 :: rest3 =>
        if isContByte b1 ∧ isContByte b2 ∧ (b = 0xE0 → 0xA0 ≤ b1)
            ∧ (b = 0xED → b1 < 0xA0) then
          (utf8DecodeLoop fuel rest3).map
            (fun cs =>
              Char.ofNat ((b - 0xE0) * 4096 + (b1 - 0x80) * 64 + (b2 - 0x80)) :: cs)
        else none
      | _ => none
    else if 0xF0 ≤ b ∧ b ≤ 0xF4 then
      match rest with
      | b1 :: b2 :: b3 :: rest4 =>
        if isContByte b1 ∧ isContByte b2 ∧ isContByte b3
            ∧ (b = 0xF0 → 0x90 ≤ b1) ∧ (b = 0xF4 → b1 < 0x90) then
          (utf8DecodeLoop fuel rest4).map
            (fun cs =>
              Char.ofNat ((b - 0xF0) * 262144 + (b1 - 0x80) * 4096
                + (b2 - 0x80) * 64 + (b3 - 0x80)) :: cs)
        else none
      | _ => none
    else none

/-- Rust `std::str::from_utf8`, over bytes modelled as `Nat`. -/
def utf8Decode (bs : List Nat) : Option (List Char) :=
  utf8DecodeLoop bs.length bs

/-- One observable behaviour of the underlying curl transfer for a given
request: the response byte chunks it hands to the write callback, in
arrival order, and whether `transfer.perform()` completes without error
(`errMsg` is the curl diagnostic when it fails). -/
structure Transfer where
  chunks : List (List Nat)
  success : Bool
  errMsg : String

/-- The write callback installed by `get_output_from_transfer`: decodes
the chunk with `str_from_utf8(data).unwrap()` — `none` models the panic
on invalid UTF-8 — and pushes the decoded string onto the locked buffer. -/
def writeCallback (buf : List String) (data : List Nat) : Option (List String) :=
  (utf8Decode data).map (fun cs => buf ++ [String.mk cs])

/-- The sequence of write-callback invocations performed by the transfer,
threading the accumulator buffer; `none` as soon as one chunk fails to
decode. -/
def runCallbacks : List String → List (List Nat) → Option (List String)
  | buf, [] => some buf
  | buf, d :: ds =>
    match writeCallback buf d with
    | some buf2 => runCallbacks buf2 ds
    | none => none

/-- The function `get_output_from_transfer` from `src/api.rs`: accumulates the streamed
chunks in the `RwLock`-guarded buffer via the write callback, unwraps the
result of `transfer.perform()` (a panic when the transfer failed), and
joins the accumulated chunks with `join("")`. -/
def get_output_from_transfer (t : Transfer) : PanicOr String :=
  match runCallbacks [] t.chunks with
  | none => .panic "invalid utf-8 sequence in response chunk"
  | some buf =>
    if t.success then .ok (String.join buf)
    else .panic ("transfer failed: " ++ t.errMsg)

/-- Modelled from the spec: the `Args` configuration struct of the
repository's `cli` module (its source is not under `src/`): an API `key`
and a raw `headers` string, both defaulting to the empty string. -/
structure Args where
  key : String
  headers : String

/-- Modelled from the spec: the function `Args::default()` — empty key, empty headers. -/
def Args.default : Args :=
  { key := "", headers := "" }

/-- The request `path_query` configures on the curl easy handle:
the URL set by `easy.url(..)` and the header lines set by
`easy.http_headers(..)`. -/
structure Request where
  url : String
  headers : List String

/-- The request assembled by `path_query` for a search string and
configuration: `easy.url(&gen_request_uri(search_string))` and
`easy.http_headers(gen_headers(args.headers))`. -/
def build_request (search_string : String) (args : Args) : Request :=
  { url := gen_request_uri search_string
    headers := gen_headers args.headers }

/- ### A model of `serde_json::from_str::<Value>` (JSON syntax) -/

/-- Dynamically-typed JSON value, as `serde_json::Value`: object, array,
string, number (kept as its lexeme — the claims never inspect numeric
values), boolean or null. -/
inductive JVal where
  | null
  | jbool (b : Bool)
  | jnum (lexeme : String)
  | jstr (s : String)
  | jarr (elements : List JVal)
  | jobj (members : List (String × JVal))

/-- JSON insignificant whitespace. -/
def isWsChar (c : Char) : Bool :=
  c == ' ' || c == '\t' || c == '\n' || c == '\r'

/-- Drops leading JSON whitespace. -/
def skipWs : List Char → List Char
  | [] => []
  | c :: cs => if isWsChar c then skipWs cs else c :: cs

/-- Value of a hexadecimal digit. -/
def hexDigitVal (c : Char) : Option Nat :=
  if '0' ≤ c ∧ c ≤ '9' then some (c.toNat - '0'.toNat)
  else if 'a' ≤ c ∧ c ≤ 'f' then some (c.toNat - 'a'.toNat + 10)
  else if 'A' ≤ c ∧ c ≤ 'F' then some (c.toNat - 'A'.toNat + 10)
  else none

/-- Reads exactly four hexadecimal digits (the escape payload of a JSON
string). -/
def parseHex4 : List Char → Option (Nat × List Char)
  | a :: b :: c :: d :: rest => do
    let va ← hexDigitVal a
    let vb ← hexDigitVal b
    let vc ← hexDigitVal c
    let vd ← hexDigitVal d
    some (va * 4096 + vb * 256 + vc * 16 + vd, rest)
  | _ => none

/-- Reads the body of a JSON string after the opening quote, handling the
standard escapes; a lone surrogate in a hex escape is rejected, a
surrogate pair decodes to one character. -/
def parseStringBody : Nat → List Char → List Char → Option (String × List Char)
  | 0, _, _ => none
  | _ + 1, [], _ => none
  | fuel + 1, c :: rest, acc =>
    if c = '"' then some (String.mk acc.reverse, rest)
    else if c = '\\' then
      match rest with
      | [] => none
      | e :: rest1 =>
        if e = '"' then parseStringBody fuel rest1 ('"' :: acc)
        else if e = '\\' then parseStringBody fuel rest1 ('\\' :: acc)
        else if e = '/' then parseStringBody fuel rest1 ('/' :: acc)
        else if e = 'b' then parseStringBody fuel rest1 ('\x08' :: acc)
        else if e = 'f' then parseStringBody fuel rest1 ('\x0c' :: acc)
        else if e = 'n' then parseStringBody fuel rest1 ('\n' :: acc)
        else if e = 'r' then parseStringBody fuel rest1 ('\r' :: acc)
        else if e = 't' then parseStringBody fuel rest1 ('\t' :: acc)
        else if e = 'u' then
          match parseHex4 rest1 with
          | none => none
          | some (n, rest2) =>
            if 0xD800 ≤ n ∧ n ≤ 0xDBFF then
              match rest2 with
              | '\\' :: 'u' :: rest3 =>
                match parseHex4 rest3 with
                | some (n2, rest4) =>
                  if 0xDC00 ≤ n2 ∧ n2 ≤ 0xDFFF then
                    parseStringBody fuel rest4
                      (Char.ofNat
                        (0x10000 + (n - 0xD800) * 1024 + (n2 - 0xDC00)) :: acc)
                  else none
                | none => none
              | _ => none
            else if 0xDC00 ≤ n ∧ n ≤ 0xDFFF then none
            else parseStringBody fuel rest2 (Char.ofNat n :: acc)
        else none
    else if c.toNat < 0x20 then none
    else parseStringBody fuel rest (c :: acc)

/-- Reads the optional fraction part of a JSON number. -/
def parseFrac : List Char → Option (List Char × List Char)
  | '.' :: rest =>
    match List.span (fun c => c.isDigit) rest with
    | ([], _) => none
    | (ds, rest2) => some ('.' :: ds, rest2)
  | cs => some ([], cs)

/-- Reads the optional exponent part of a JSON number. -/
def parseExp : List Char → Option (List Char × List Char)
  | [] => some ([], [])
  | c :: rest =>
    if c = 'e' ∨ c = 'E' then
      let signAndRest : List Char × List Char :=
        match rest with
        | '+' :: r => (['+'], r)
        | '-' :: r => (['-'], r)
        | _ => ([], rest)
      match List.span (fun d => d.isDigit) signAndRest.2 with
      | ([], _) => none
      | (ds, rest2) => some (c :: signAndRest.1 ++ ds, rest2)
    else some ([], c :: rest)

/-- Reads a JSON number (sign, integer part with no leading zero,
optional fraction, optional exponent), returning its lexeme. -/
def parseNumber (cs : List Char) : Option (List Char × List Char) :=
  let signAndRest : List Char × List Char :=
    match cs with
    | '-' :: rest => (['-'], rest)
    | _ => ([], cs)
  match signAndRest.2 with
  | '0' :: rest => do
    let fe ← parseFrac rest
    let ex ← parseExp fe.2
    some (signAndRest.1 ++ '0' :: (fe.1 ++ ex.1), ex.2)
  | c :: rest =>
    if c.isDigit then do
      let spanned := List.span (fun d => d.isDigit) rest
      let fe ← parseFrac spanned.2
      let ex ← parseExp fe.2
      some (signAndRest.1 ++ c :: (spanned.1 ++ fe.1 ++ ex.1), ex.2)
    else none
  | [] => none

mutual

/-- Reads one JSON value at the head of the input (leading whitespace
already skipped); `fuel` bounds the nesting depth, one unit per nested
value, so the input length suffices. -/
def parseValue : Nat → List Char → Option (JVal × List Char)
  | 0, _ => none
  | _ + 1, [] => none
  | fuel + 1, c :: rest =>
    if c = 'n' then
      match rest with
      | 'u' :: 'l' :: 'l' :: r => some (.null, r)
      | _ => none
    else if c = 't' then
      match rest with
      | 'r' :: 'u' :: 'e' :: r => some (.jbool true, r)
      | _ => none
    else if c = 'f' then
      match rest with
      | 'a' :: 'l' :: 's' :: 'e' :: r => some (.jbool false, r)
      | _ => none
    else if c = '"' then
      match parseStringBody (rest.length + 1) rest [] with
      | some (s, r) => some (.jstr s, r)
      | none => none
    else if c = '[' then
      match skipWs rest with
      | ']' :: r2 => some (.jarr [], r2)
      | r1 =>
        match parseElements fuel r1 with
        | some (xs, r2) => some (.jarr xs, r2)
        | none => none
    else if c = '\x7b' then
      match skipWs rest with
      | '\x7d' :: r2 => some (.jobj [], r2)
      | r1 =>
        match parseMembers fuel r1 with
        | some (fs, r2) => some (.jobj fs, r2)
        | none => none
    else
      match parseNumber (c :: rest) with
      | some (lex, r) => some (.jnum (String.mk lex), r)
      | none => none

/-- Reads the comma-separated elements of a nonempty JSON array,
consuming the closing bracket. -/
def parseElements : Nat → List Char → Option (List JVal × List Char)
  | 0, _ => none
  | fuel + 1, cs =>
    match parseValue fuel cs with
    | none => none
    | some (v, r) =>
      match skipWs r with
      | ',' :: r2 =>
        match parseElements fuel (skipWs r2) with
        | some (vs, r3) => some (v :: vs, r3)
        | none => none
      | ']' :: r2 => some ([v], r2)
      | _ => none

/-- Reads the comma-separated members of a nonempty JSON object,
consuming the closing brace. -/
def parseMembers : Nat → List Char → Option (List (String × JVal) × List Char)
  | 0, _ => none
  | fuel + 1, cs =>
    match cs with
    | '"' :: rest =>
      match parseStringBody (rest.length + 1) rest [] with
      | none => none
      | some (k, r) =>
        match skipWs r with
        | ':' :: r2 =>
          match parseValue fuel (skipWs r2) with
          | none => none
          | some (v, r3) =>
            match skipWs r3 with
            | ',' :: r4 =>
              match parseMembers fuel (skipWs r4) with
              | some (fs, r5) => some ((k, v) :: fs, r5)
              | none => none
            | '\x7d' :: r4 => some ([(k, v)], r4)
            | _ => none
        | _ => none
    | _ => none

end

/-- Modelled behaviour of `serde_json::from_str::<Value>`: parse one JSON
value, allowing surrounding whitespace and nothing else; `none` on any
syntax error. -/
def parseJson (s : String) : Option JVal :=
  match parseValue (s.data.length + 1) (skipWs s.data) with
  | some (v, rest) => if skipWs rest = [] then some v else none
  | none => none

/-- The function `path_query` from `src/api.rs`: configures the easy
handle with the built URL and formatted headers, runs
`get_output_from_transfer` against the transfer behaviour `net` exhibits
for that request, and unwraps `serde_json::from_str` on the accumulated
body (a panic when the body is not valid JSON). -/
def path_query (search_string : String) (args : Args)
    (net : Request → Transfer) : PanicOr JVal :=
  let t := net (build_request search_string args)
  match get_output_from_transfer t with
  | .panic m => .panic m
  | .ok output =>
    match parseJson output with
    | none => .panic "response body is not valid JSON"
    | some v => .ok v

/- ### Concrete transfer behaviours used by the witnesses -/

/-- A transfer that delivers no chunks and reports a connection failure. -/
def connectionFailure : Transfer :=
  { chunks := [], success := false, errMsg := "couldn't connect to host" }

/-- A transfer that succeeds but whose body is the non-JSON text
`"not json"` (bytes of `n o t ␣ j s o n`). -/
def notJsonResponse : Transfer :=
  { chunks := [[110, 111, 116, 32, 106, 115, 111, 110]]
    success := true
    errMsg := "" }

/- ### Helper lemmas about the transfer executor -/

theorem runCallbacks_eq_of_decodes (chunks : List (List Nat))
    (decoded : List String)
    (hdec : chunks.map utf8Decode = decoded.map (fun s => some s.data)) :
    ∀ buf, runCallbacks buf chunks = some (buf ++ decoded) := by
  induction chunks generalizing decoded with
  | nil =>
    intro buf
    cases decoded with
    | nil => simp [runCallbacks]
    | cons s ss => simp at hdec
  | cons d ds ih =>
    intro buf
    cases decoded with
    | nil => simp at hdec
    | cons s ss =>
      simp only [List.map_cons, List.cons.injEq] at hdec
      have hd : utf8Decode d = some s.data := hdec.1
      have hstep : writeCallback buf d = some (buf ++ [s]) := by
        simp [writeCallback, hd, string_mk_data]
      simp only [runCallbacks, hstep]
      rw [ih ss hdec.2 (buf ++ [s])]
      simp

/- ### The claims -/

/-- C1: for every header string consisting of `n` comma-separated
well-formed entries (entries containing no comma), `gen_headers` returns
exactly those `n` entries, verbatim — no trimming — and in the original
order; in particular `"User-Agent: test-user,Host: fake.com"` yields
`["User-Agent: test-user", "Host: fake.com"]`. -/
theorem gen_headers_splits_entries (entries : List String)
    (h1 : entries ≠ []) (h2 : ∀ e ∈ entries, ',' ∉ e.data) :
    gen_headers (joinComma entries) = entries
    ∧ (gen_headers (joinComma entries)).length = entries.length
    ∧ gen_headers "User-Agent: test-user,Host: fake.com"
        = ["User-Agent: test-user", "Host: fake.com"] := by
  have h := gen_headers_joinComma entries h1 h2
  exact ⟨h, by rw [h], by decide⟩

/-- Witness for C1 at the spec's own example. -/
theorem gen_headers_splits_entries_witness :
    gen_headers (joinComma ["User-Agent: test-user", "Host: fake.com"])
      = ["User-Agent: test-user", "Host: fake.com"] :=
  (gen_headers_splits_entries ["User-Agent: test-user", "Host: fake.com"]
    (by decide) (by decide)).1

/-- C2: `gen_request_uri` returns exactly the fixed origin
`"https://www.reddit.com"` concatenated with the given path, with no
validation, normalization or percent-encoding (spaces and `%` pass
through verbatim); in particular the spec's scenario 1 holds. -/
theorem gen_request_uri_is_concatenation (p : String) :
    gen_request_uri p = "https://www.reddit.com" ++ p
    ∧ (gen_request_uri p).data = "https://www.reddit.com".data ++ p.data
    ∧ gen_request_uri "/r/rust/top/.json?count=20"
        = "https://www.reddit.com/r/rust/top/.json?count=20"
    ∧ gen_request_uri "/a b?q= percent % 100"
        = "https://www.reddit.com/a b?q= percent % 100" :=
  ⟨rfl, rfl, by decide, by decide⟩

/-- C3: for every finite sequence of byte chunks delivered to the write
callback, a successful transfer returns the UTF-8 decodings of the
chunks concatenated in arrival order with no added separators; in
particular the chunks `["\x7b\"a\":", "1\x7d"]` accumulate to
`"\x7b\"a\":1\x7d"`. -/
theorem get_output_concatenates_chunks (chunks : List (List Nat))
    (decoded : List String) (m : String)
    (hdec : chunks.map utf8Decode = decoded.map (fun s => some s.data)) :
    get_output_from_transfer { chunks := chunks, success := true, errMsg := m }
        = .ok (String.join decoded)
    ∧ get_output_from_transfer
        { chunks := [[123, 34, 97, 34, 58], [49, 125]]
          success := true, errMsg := "" }
        = .ok "\x7b\"a\":1\x7d" := by
  constructor
  · have h := runCallbacks_eq_of_decodes chunks decoded hdec []
    simp only [List.nil_append] at h
    simp [get_output_from_transfer, h]
  · rfl

/-- Witness for C3 at the spec's scenario 3 chunks. -/
theorem get_output_concatenates_chunks_witness :
    get_output_from_transfer
        { chunks := [[123, 34, 97, 34, 58], [49, 125]]
          success := true, errMsg := "" }
      = .ok (String.join ["\x7b\"a\":", "1\x7d"]) :=
  (get_output_concatenates_chunks [[123, 34, 97, 34, 58], [49, 125]]
    ["\x7b\"a\":", "1\x7d"] "" (by decide)).1

/-- C4 counterexample: on a connection failure the code does not yield a
caller-visible `QueryError::Transfer` error value — no such type exists
in the code — it panics on `unwrap()`, aborting the process before any
value reaches the caller. -/
theorem path_query_transfer_failure_counterexample :
    path_query "/r/rust/top/.json?count=20" Args.default
        (fun _ => connectionFailure)
      = .panic "transfer failed: couldn't connect to host" :=
  rfl

/-- C4 amended: if the transfer executor fails (connection failure or a
chunk that is not valid UTF-8), `path_query` panics via `unwrap` before
any JSON parse is attempted; no typed error value is returned to the
caller. -/
theorem path_query_transfer_failure_panics (s : String) (args : Args)
    (net : Request → Transfer)
    (hfail : (net (build_request s args)).success = false) :
    path_query s args net
        = .panic ("transfer failed: " ++ (net (build_request s args)).errMsg)
    ∨ path_query s args net
        = .panic "invalid utf-8 sequence in response chunk" := by
  cases h : runCallbacks [] (net (build_request s args)).chunks with
  | none =>
    right
    simp [path_query, get_output_from_transfer, h]
  | some buf =>
    left
    simp [path_query, get_output_from_transfer, h, hfail]

/-- Witness for C4's amended theorem at a concrete connection failure. -/
theorem path_query_transfer_failure_panics_witness :
    path_query "/r/rust/top/.json?count=20" Args.default
        (fun _ => connectionFailure)
      = .panic ("transfer failed: " ++ connectionFailure.errMsg)
    ∨ path_query "/r/rust/top/.json?count=20" Args.default
        (fun _ => connectionFailure)
      = .panic "invalid utf-8 sequence in response chunk" :=
  path_query_transfer_failure_panics "/r/rust/top/.json?count=20"
    Args.default (fun _ => connectionFailure) rfl

/-- C5 counterexample: when the transfer succeeds but the body is the
non-JSON text `"not json"`, the code does not yield a caller-visible
`QueryError::Parse` error value — it panics on the `serde_json` `unwrap`,
aborting the process. -/
theorem path_query_parse_failure_counterexample :
    path_query "/r/rust/top/.json?count=20" Args.default
        (fun _ => notJsonResponse)
      = .panic "response body is not valid JSON" :=
  rfl

/-- C5 amended: if the transfer succeeds but the accumulated body is not
syntactically valid JSON, `path_query` panics via `unwrap` on the parse;
no typed error value is returned to the caller. -/
theorem path_query_parse_failure_panics (s : String) (args : Args)
    (net : Request → Transfer) (buf : List String)
    (hsucc : (net (build_request s args)).success = true)
    (hbuf : runCallbacks [] (net (build_request s args)).chunks = some buf)
    (hparse : (parseJson (String.join buf)).isNone = true) :
    path_query s args net = .panic "response body is not valid JSON" := by
  have hp : parseJson (String.join buf) = none :=
    Option.isNone_iff_eq_none.mp hparse
  simp [path_query, get_output_from_transfer, hbuf, hsucc, hp]

/-- Witness for C5's amended theorem at the body `"not json"`. -/
theorem path_query_parse_failure_panics_witness :
    path_query "/r/rust/top/.json?count=20" Args.default
        (fun _ => notJsonResponse)
      = .panic "response body is not valid JSON" :=
  path_query_parse_failure_panics "/r/rust/top/.json?count=20" Args.default
    (fun _ => notJsonResponse) ["not json"] rfl (by decide) (by decide)

/-- C6 counterexample: `gen_headers` applied to the empty string returns
the one-element sequence containing the empty entry (Rust
`"".split(",")` yields one empty piece), not the empty sequence the
claim asserts. -/
theorem gen_headers_empty_counterexample :
    gen_headers "" = [""] ∧ gen_headers "" ≠ [] := by
  decide

/-- C6 amended: `gen_headers` applied to the empty string returns a
sequence containing exactly one empty entry. -/
theorem gen_headers_empty_singleton :
    gen_headers "" = [""] := by
  decide

/-- C7: `gen_headers` is a pure total transform: every input string,
however malformed, yields a result — a nonempty sequence with exactly
one entry per comma-separated segment — and no error is possible. -/
theorem gen_headers_total (s : String) :
    (gen_headers s).length = s.data.count ',' + 1 ∧ gen_headers s ≠ [] := by
  refine ⟨by simpa [gen_headers] using splitChar_length ',' s.data, ?_⟩
  simp only [gen_headers, ne_eq, List.map_eq_nil_iff]
  exact splitChar_ne_nil ',' s.data

/-- C8: header order is significant and preserved: two header strings
made of the same multiset of comma-free entries in different orders
produce unequal header lists. -/
theorem gen_headers_order_sensitive (e1 e2 : List String)
    (h1 : e1 ≠ []) (hc1 : ∀ s ∈ e1, ',' ∉ s.data)
    (hc2 : ∀ s ∈ e2, ',' ∉ s.data) (hperm : e1.Perm e2) (hne : e1 ≠ e2) :
    gen_headers (joinComma e1) ≠ gen_headers (joinComma e2) := by
  have h2 : e2 ≠ [] := fun h => h1 (List.Perm.eq_nil (h ▸ hperm))
  rw [gen_headers_joinComma e1 h1 hc1, gen_headers_joinComma e2 h2 hc2]
  exact hne

/-- Witness for C8 at the swapped pair `["a", "b"]` / `["b", "a"]`. -/
theorem gen_headers_order_sensitive_witness :
    gen_headers (joinComma ["a", "b"]) ≠ gen_headers (joinComma ["b", "a"]) :=
  gen_headers_order_sensitive ["a", "b"] ["b", "a"] (by decide) (by decide)
    (by decide) (by decide) (by decide)

/-- C9: the configuration's `key` field has no effect on `path_query`:
two configurations differing only in `key` assemble the identical
request (same URL, same header list) and produce the identical result
against any transfer behaviour. -/
theorem path_query_ignores_key (s h k1 k2 : String)
    (net : Request → Transfer) :
    build_request s { key := k1, headers := h }
        = build_request s { key := k2, headers := h }
    ∧ path_query s { key := k1, headers := h } net
        = path_query s { key := k2, headers := h } net :=
  ⟨rfl, rfl⟩

/-- C10: empty substrings produced by trailing or adjacent commas are
kept as empty header entries, neither filtered out nor rejected: a
trailing comma appends an empty entry and adjacent commas contribute an
empty entry in place; in particular `"a,b,"` yields `["a", "b", ""]`. -/
theorem gen_headers_keeps_empty_entries (s t : String) :
    gen_headers (s ++ ",") = gen_headers s ++ [""]
    ∧ gen_headers (s ++ ",," ++ t) = gen_headers s ++ [""] ++ gen_headers t
    ∧ gen_headers "a,b," = ["a", "b", ""] := by
  refine ⟨?_, ?_, by decide⟩
  · have h1 : (s ++ ",").data = s.data ++ ',' :: [] := string_data_append s ","
    simp [gen_headers, h1, splitChar_append_sep, splitChar]
  · have h2 : (s ++ ",," ++ t).data = s.data ++ ',' :: (',' :: t.data) := by
      rw [string_data_append, string_data_append, List.append_assoc]
      rfl
    simp [gen_headers, h2, splitChar_append_sep, splitChar]

end RustRedditApi
